import Mathlib

/-!
Verification of the JSON-RPC-over-HTTP transport core of the
agentic-profile A2A client.

The pure data model and the operations the client performs are embedded
shallowly: TypeScript values become inductive types, stateful code becomes
explicit state passing, fallible code returns `Except`, and the HTTP peer
is a parameter function from attempt number and headers to an optional
response.  Code present in the repository (`src/src/client.ts`,
`src/src/cli/send.ts`) is translated directly; the transport engine the
client delegates to (`json-rpc.ts` / `auth-handler.ts`, imported by
`client.ts` but not part of the available sources) is modelled from the
specification, with each such definition marked in its doc comment.
-/

/-- A JSON value, the payload type carried by JSON-RPC envelopes.
`num` carries an integer; the claims under study never depend on
non-integral numerics. -/
inductive Json where
  | null : Json
  | bool (b : Bool) : Json
  | num (n : Int) : Json
  | str (s : String) : Json
  | arr (elems : List Json) : Json
  | obj (fields : List (String × Json)) : Json
  deriving Repr

/-- Field lookup in a JSON object's field list, first match wins.
Returns `none` when the key is absent. -/
def jsonGet : List (String × Json) → String → Option Json
  | [], _ => none
  | (k, v) :: rest, key => if k = key then some v else jsonGet rest key

/-- A JSON-RPC correlation id: `id?: number | string | null` in
`src/src/client.ts` (`JSONRPCMessageIdentifier`).  Absence and JSON null
are both modelled as `Option.none` at use sites. -/
inductive RpcId where
  | num (n : Int) : RpcId
  | str (s : String) : RpcId
  deriving Repr, DecidableEq

/-- Encoding of a correlation id back into a JSON value, used when the
request envelope is serialized. -/
def encodeRpcId : RpcId → Json
  | .num n => .num n
  | .str s => .str s

/-- HTTP headers as an ordered association list, the shallow embedding of
the `HttpHeaders` record type of `src/src/cli/send.ts`. -/
abbrev HttpHeaders := List (String × String)

/-- Content type of an HTTP response body, as far as the demultiplexer
distinguishes it (spec 4.3, 6): a single JSON document, an event stream,
or anything else. -/
inductive ContentType where
  | json : ContentType
  | eventStream : ContentType
  | other : ContentType
  deriving Repr, DecidableEq

/-- A raw HTTP response: status code, content type and parsed body.
`body = none` models a body that is not valid JSON. -/
structure HttpResponse where
  status : Nat
  contentType : ContentType
  body : Option Json
  deriving Repr

/-- A JSON-RPC error object `code/message/data` (spec 3, `JSONRPCError`
in `src/src/client.ts`). -/
structure RpcError where
  code : Int
  message : String
  data : Option Json
  deriving Repr

/-- A parsed JSON-RPC response envelope (`JSONRPCResponse` in
`src/src/client.ts`): optional id, optional result, optional error. -/
structure RpcResponse where
  id : Option RpcId
  result : Option Json
  error : Option RpcError
  deriving Repr

/-- Decode the `id` field of an envelope.  A number or string becomes a
correlation id; JSON null becomes `some none` (id present but null); any
other JSON type is invalid (`none`). -/
def parseIdField : Json → Option (Option RpcId)
  | .num n => some (some (.num n))
  | .str s => some (some (.str s))
  | .null => some none
  | _ => none

/-- Decode a JSON value as a JSON-RPC error object: an object with an
integer `code`, a string `message` and optional `data`. -/
def parseRpcError : Json → Option RpcError
  | .obj fields =>
    match jsonGet fields "code", jsonGet fields "message" with
    | some (.num c), some (.str m) => some ⟨c, m, jsonGet fields "data"⟩
    | _, _ => none
  | _ => none

/-- Parse a JSON value as a JSON-RPC response envelope.  The `jsonrpc`
version must be the constant "2.0" (spec 4.3); the id field, when
present, must be a number, string or null; the error field, when
present, must be a well-formed error object.  Any violation makes the
envelope malformed (`none`). -/
def parseRpcResponse (j : Json) : Option RpcResponse :=
  match j with
  | .obj fields =>
    match jsonGet fields "jsonrpc" with
    | some (.str v) =>
      if v = "2.0" then
        let idPart : Option (Option RpcId) :=
          match jsonGet fields "id" with
          | none => some none
          | some idJson => parseIdField idJson
        match idPart with
        | none => none
        | some theId =>
          match jsonGet fields "error" with
          | some errJson =>
            match parseRpcError errJson with
            | none => none
            | some e => some ⟨theId, jsonGet fields "result", some e⟩
          | none => some ⟨theId, jsonGet fields "result", none⟩
      else none
    | _ => none
  | _ => none

/-- The ways a response can violate the JSON-RPC protocol (spec 7(c)). -/
inductive ProtocolViolation where
  | unexpectedContentType : ProtocolViolation
  | malformedEnvelope : ProtocolViolation
  | idMismatch : ProtocolViolation
  | missingResultAndError : ProtocolViolation
  deriving Repr, DecidableEq

/-- The failure taxonomy surfaced to callers (spec 7): transport error,
HTTP status error, protocol error, or a peer-supplied JSON-RPC error. -/
inductive RpcFailure where
  | transport : RpcFailure
  | httpStatus (status : Nat) (body : Option Json) : RpcFailure
  | protocol (v : ProtocolViolation) : RpcFailure
  | rpc (e : RpcError) : RpcFailure
  deriving Repr

/-- Modelled from the spec: the envelope validation of the Response
Demultiplexer (spec 4.3), whose implementation lives in the missing
`json-rpc.ts`.  Given a parsed body and the originating request id:
verify the envelope parses and its id equals the request id; surface a
peer `error` object verbatim; return the `result` when present; treat a
response with neither as malformed. -/
def validateRpcEnvelope (j : Json) (reqId : RpcId) : Except RpcFailure Json :=
  match parseRpcResponse j with
  | none => .error (.protocol .malformedEnvelope)
  | some rr =>
    if rr.id ≠ some reqId then .error (.protocol .idMismatch)
    else
      match rr.error with
      | some e => .error (.rpc e)
      | none =>
        match rr.result with
        | some r => .ok r
        | none => .error (.protocol .missingResultAndError)

/-- Modelled from the spec: `resolve(rawResponse, method)` of the
Response Demultiplexer (spec 4.3) — the `handleJsonResponse` member of
the missing `json-rpc.ts`.  The content type must indicate a single JSON
document, the body must parse, and the envelope is validated against the
originating request id. -/
def handleJsonResponse (resp : HttpResponse) (reqId : RpcId) : Except RpcFailure Json :=
  if resp.contentType ≠ .json then .error (.protocol .unexpectedContentType)
  else
    match resp.body with
    | none => .error (.protocol .malformedEnvelope)
    | some j => validateRpcEnvelope j reqId

/-- TypeScript null-coalescing `x ?? null` applied to a JSON result
payload: a JSON null payload collapses to TypeScript `null`
(`Option.none`); everything else passes through. -/
def jsNullCoalesce : Json → Option Json
  | .null => none
  | j => some j

/-- `A2AClient.sendMessage` (src/src/client.ts lines 51-66), with the
dispatcher's outcome passed in as `httpResponse`: when `makeHttpRequest`
returned null the method returns null; otherwise the response is handed
to `handleJsonResponse` and the code returns `(result as Task | null) ?? null`. -/
def sendMessage (httpResponse : Option HttpResponse) (reqId : RpcId) :
    Except RpcFailure (Option Json) :=
  match httpResponse with
  | none => .ok none
  | some resp =>
    match handleJsonResponse resp reqId with
    | .error e => .error e
    | .ok r => .ok (jsNullCoalesce r)

/-- One server-sent event frame's data payload, after the frame has been
assembled from the byte stream: `none` models data that fails JSON
parsing (a malformed frame), `some j` carries the parsed JSON document. -/
abbrev FrameData := Option Json

/-- How the underlying HTTP connection of a stream ended: the peer
closed it normally, or the connection itself failed. -/
inductive StreamEnding where
  | closed : StreamEnding
  | connectionError : StreamEnding
  deriving Repr, DecidableEq

/-- What the decoder does with one frame: skip it, yield a result to the
consumer, or fail the stream. -/
inductive FrameStep where
  | skip : FrameStep
  | yieldResult (r : Json) : FrameStep
  | fail (e : RpcFailure) : FrameStep
  deriving Repr

/-- Modelled from the spec: per-frame processing of the Streaming
Decoder (spec 4.4, 7), whose implementation lives in the missing
`json-rpc.ts` (`handleSseResponse`).  A frame whose data is not valid
JSON is a malformed frame, skipped with a logged anomaly (spec 7(e)).
A frame that parses is validated exactly as in spec 4.3: a malformed
envelope, an id mismatch, or a missing result are protocol errors and a
peer error object is an RpcError — all terminal (spec 7(c)/(d)); a valid
result is yielded. -/
def frameStep (reqId : RpcId) : FrameData → FrameStep
  | none => .skip
  | some j =>
    match validateRpcEnvelope j reqId with
    | .error e => .fail e
    | .ok r => .yieldResult r

/-- How a decoded stream terminated, as seen by the consumer. -/
inductive StreamOutcome where
  | closed : StreamOutcome
  | failed (e : RpcFailure) : StreamOutcome
  deriving Repr

/-- The full observable behaviour of one decoded stream: the results
yielded to the consumer, in order, and how the sequence ended. -/
structure DecodeResult where
  yielded : List Json
  outcome : StreamOutcome
  deriving Repr

/-- Modelled from the spec: the Streaming Decoder's main loop (spec
4.4), from the missing `json-rpc.ts`.  Frames are processed strictly in
arrival order; a skipped frame contributes nothing, a yielded result is
appended, and a failing frame terminates the sequence at that point.
When all frames are consumed the sequence ends cleanly if the peer
closed the connection, and with a transport error if the connection
itself failed. -/
def handleSseFrames (reqId : RpcId) : List FrameData → StreamEnding → DecodeResult
  | [], ending =>
    match ending with
    | .closed => ⟨[], .closed⟩
    | .connectionError => ⟨[], .failed .transport⟩
  | f :: rest, ending =>
    match frameStep reqId f with
    | .skip => handleSseFrames reqId rest ending
    | .yieldResult r =>
      let d := handleSseFrames reqId rest ending
      ⟨r :: d.yielded, d.outcome⟩
    | .fail e => ⟨[], .failed e⟩

/-- A streaming HTTP response: the sequence of event frames the
connection delivered and how the connection ended. -/
structure StreamHttpResponse where
  frames : List FrameData
  ending : StreamEnding
  deriving Repr

/-- `A2AClient.sendTaskSubscribe` (src/src/client.ts lines 73-105), with
the dispatcher's outcome passed in as `httpResponse`: the generator
yields from `handleSseResponse` only when `makeHttpRequest` produced a
response (`if (httpResponse) ... yield*`); otherwise it completes at
once, yielding nothing and raising no error. -/
def sendTaskSubscribe (httpResponse : Option StreamHttpResponse) (reqId : RpcId) :
    DecodeResult :=
  match httpResponse with
  | none => ⟨[], .closed⟩
  | some sr => handleSseFrames reqId sr.frames sr.ending

/-- The accept mode of a call (spec 4.2): a single JSON response or an
event stream. -/
inductive AcceptMode where
  | json : AcceptMode
  | eventStream : AcceptMode
  deriving Repr, DecidableEq

/-- The `Accept` header value selected by the accept mode (spec 6). -/
def acceptHeaderValue : AcceptMode → String
  | .json => "application/json"
  | .eventStream => "text/event-stream"

/-- Modelled from the spec: the header set attached to one HTTP attempt
(spec 4.2 step 1, missing `json-rpc.ts`): the JSON-RPC content headers
and accept mode plus the credential headers currently supplied by the
Authentication Capability. -/
def requestHeaders (accept : AcceptMode) (capHeaders : HttpHeaders) : HttpHeaders :=
  [("Content-Type", "application/json"), ("Accept", acceptHeaderValue accept)] ++ capHeaders

/-- A JSON-RPC request envelope before serialization (spec 3,
`JSONRPCRequest` in `src/src/client.ts`). -/
structure RpcRequest where
  id : RpcId
  method : String
  params : Json
  deriving Repr

/-- The Request Builder (spec 4.1): attach a freshly generated
correlation id to a method name and parameter payload.  Id generation is
external randomness, passed in as `newId`. -/
def buildRpcRequest (newId : RpcId) (method : String) (params : Json) : RpcRequest :=
  ⟨newId, method, params⟩

/-- Serialization of a request envelope into the JSON body put on the
wire (spec 6): `jsonrpc`, `id`, `method`, `params`. -/
def serializeRpcRequest (req : RpcRequest) : Json :=
  .obj [("jsonrpc", .str "2.0"), ("id", encodeRpcId req.id),
        ("method", .str req.method), ("params", req.params)]

/-- The Authentication Capability interface (spec 3, 6), a state machine
over an abstract credential-cache state `σ`: read the current headers,
decide on a 401 whether to retry and with which headers, and persist
headers after a successful challenge. -/
structure AuthCapability (σ : Type) where
  headers : σ → HttpHeaders
  shouldRetryWithHeaders : σ → RpcRequest → HttpResponse → Option HttpHeaders
  onSuccess : σ → HttpHeaders → σ

/-- One observable event of a dispatch: an HTTP attempt (attempt number,
headers sent, serialized body sent) or an invocation of the capability's
`onSuccess` with the headers being persisted. -/
inductive DispatchEvent where
  | attempt (n : Nat) (headers : HttpHeaders) (body : Json) : DispatchEvent
  | onSuccessEvt (headers : HttpHeaders) : DispatchEvent
  deriving Repr

/-- The complete record of one dispatch: the ordered event trace, the
capability state after the call, and the outcome surfaced to the
caller. -/
structure DispatchRun (σ : Type) where
  trace : List DispatchEvent
  finalState : σ
  outcome : Except RpcFailure HttpResponse

/-- Whether an HTTP status code counts as success (2xx). -/
def isSuccessStatus (s : Nat) : Bool := 200 ≤ s && s < 300

/-- Modelled from the spec: the Transport Dispatcher's
`dispatch(request, acceptMode)` (spec 4.2), the `makeHttpRequest` member
of the missing `json-rpc.ts`.  The peer is the parameter `net`, mapping
attempt number and attached headers to the response of that attempt
(`none` is a network-level failure).  Algorithm, following spec 4.2:
attach the capability's current headers and issue the POST; on a 401
with a capability present, ask `shouldRetryWithHeaders`; if it supplies
headers, invoke `onSuccess` with them and re-issue the same serialized
request once with the new headers, the second response being terminal
whatever it is; a 401 without retry decision and any other non-success
status are terminal HTTP status errors; no response at all is a
transport error. -/
def dispatch {σ : Type} (cap : Option (AuthCapability σ)) (st : σ) (req : RpcRequest)
    (accept : AcceptMode) (net : Nat → HttpHeaders → Option HttpResponse) :
    DispatchRun σ :=
  let body := serializeRpcRequest req
  let capHeaders : HttpHeaders :=
    match cap with
    | none => []
    | some c => c.headers st
  let h0 := requestHeaders accept capHeaders
  match net 0 h0 with
  | none => ⟨[.attempt 0 h0 body], st, .error .transport⟩
  | some r0 =>
    if isSuccessStatus r0.status then ⟨[.attempt 0 h0 body], st, .ok r0⟩
    else if r0.status = 401 then
      match cap with
      | none => ⟨[.attempt 0 h0 body], st, .error (.httpStatus r0.status r0.body)⟩
      | some c =>
        match c.shouldRetryWithHeaders st req r0 with
        | none => ⟨[.attempt 0 h0 body], st, .error (.httpStatus r0.status r0.body)⟩
        | some newHeaders =>
          let st1 := c.onSuccess st newHeaders
          let h1 := requestHeaders accept newHeaders
          let retryTrace := [.attempt 0 h0 body, .onSuccessEvt newHeaders, .attempt 1 h1 body]
          match net 1 h1 with
          | none => ⟨retryTrace, st1, .error .transport⟩
          | some r1 =>
            if isSuccessStatus r1.status then ⟨retryTrace, st1, .ok r1⟩
            else ⟨retryTrace, st1, .error (.httpStatus r1.status r1.body)⟩
    else ⟨[.attempt 0 h0 body], st, .error (.httpStatus r0.status r0.body)⟩

/-- The number of HTTP attempts recorded in a dispatch trace. -/
def attemptCount (trace : List DispatchEvent) : Nat :=
  (trace.filter (fun e => match e with | .attempt _ _ _ => true | _ => false)).length

/-- The serialized bodies of the HTTP attempts of a trace, in order. -/
def attemptBodies (trace : List DispatchEvent) : List Json :=
  trace.filterMap (fun e => match e with | .attempt _ _ b => some b | _ => none)

/-- The header sets of the HTTP attempts of a trace, in order. -/
def attemptHeaders (trace : List DispatchEvent) : List HttpHeaders :=
  trace.filterMap (fun e => match e with | .attempt _ h _ => some h | _ => none)

/-- The header sets passed to `onSuccess` during a dispatch, in order. -/
def onSuccessEvents (trace : List DispatchEvent) : List HttpHeaders :=
  trace.filterMap (fun e => match e with | .onSuccessEvt h => some h | _ => none)

/-- The initial credential cache of the CLI authentication handler:
`let headers = {} as HttpHeaders` (src/src/cli/send.ts line 52). -/
def cliInitialHeaders : HttpHeaders := []

/-- The `headers` operation of the CLI authentication handler
(src/src/cli/send.ts line 58): `() => headers` returns the cache as it
stands. -/
def cliHeaders (cache : HttpHeaders) : HttpHeaders := cache

/-- The `onSuccess` operation of the CLI authentication handler
(src/src/cli/send.ts lines 80-82): `headers = updatedHeaders` replaces
the cache with exactly the header set passed in. -/
def cliOnSuccess (_cache : HttpHeaders) (updatedHeaders : HttpHeaders) : HttpHeaders :=
  updatedHeaders

/-- The `shouldRetryWithHeaders` operation of the CLI authentication
handler (src/src/cli/send.ts lines 59-79).  It reads only its two
arguments, never the cache.  `challengeType` stands for the imported
constant `AGENTIC_CHALLENGE_TYPE` and `generateAuthToken` for the
external cryptographic token generation, both from the external
`@agentic-profile/auth` package.  A non-401 status yields no retry
(`undefined`); a body that is not JSON or whose `type` field is not the
agentic challenge type is a thrown error; otherwise the produced token
is wrapped as an `Authorization: Agentic <token>` header. -/
def cliShouldRetryWithHeaders (challengeType : String)
    (generateAuthToken : Json → Except String String)
    (_req : RpcRequest) (fetchResponse : HttpResponse) :
    Except String (Option HttpHeaders) :=
  if fetchResponse.status ≠ 401 then .ok none
  else
    match fetchResponse.body with
    | none => .error "Unexpected 401 response"
    | some agenticChallenge =>
      let typeField :=
        match agenticChallenge with
        | .obj fields => jsonGet fields "type"
        | _ => none
      match typeField with
      | some (.str t) =>
        if t ≠ challengeType then .error "Unexpected 401 response"
        else
          match generateAuthToken agenticChallenge with
          | .error e => .error e
          | .ok authToken => .ok (some [("Authorization", "Agentic " ++ authToken)])
      | _ => .error "Unexpected 401 response"

/-- One invocation of an operation of the CLI authentication handler. -/
inductive AuthOp where
  | headersCall : AuthOp
  | shouldRetryCall (req : RpcRequest) (resp : HttpResponse) : AuthOp
  | onSuccessCall (h : HttpHeaders) : AuthOp

/-- The effect of one handler operation on the credential cache
(src/src/cli/send.ts lines 57-83): only `onSuccess` assigns to the
captured `headers` variable; `headers()` and `shouldRetryWithHeaders`
never do. -/
def authApply (cache : HttpHeaders) : AuthOp → HttpHeaders
  | .onSuccessCall h => cliOnSuccess cache h
  | .headersCall => cache
  | .shouldRetryCall _ _ => cache

/-- The header set passed to the most recent `onSuccess` invocation of
an operation sequence, if any. -/
def lastOnSuccessHeaders : List AuthOp → Option HttpHeaders
  | [] => none
  | op :: rest =>
    match lastOnSuccessHeaders rest with
    | some h => some h
    | none =>
      match op with
      | .onSuccessCall h => some h
      | _ => none

/-- JavaScript `baseUrl.endsWith("/")` for the one-character suffix used
by the constructor: true exactly when the last character is a slash. -/
def jsEndsWithSlash (s : List Char) : Bool :=
  match s.getLast? with
  | some c => c == '/'
  | none => false

/-- JavaScript `baseUrl.slice(0, -1)`: drop the last character. -/
def jsSliceDropLast (s : List Char) : List Char := s.dropLast

/-- The `A2AClient` constructor's base-URL normalization
(src/src/client.ts line 42):
`baseUrl.endsWith("/") ? baseUrl.slice(0, -1) : baseUrl`, over strings
embedded as character lists. -/
def normalizeBaseUrl (baseUrl : List Char) : List Char :=
  if jsEndsWithSlash baseUrl then jsSliceDropLast baseUrl else baseUrl


/-- The result the consumer receives from one frame, if any: `some r`
when the frame yields `r`, `none` when it is skipped or failing. -/
def frameYieldValue (reqId : RpcId) (f : FrameData) : Option Json :=
  match frameStep reqId f with
  | .yieldResult r => some r
  | _ => none

/-- Whether a frame does not terminate the stream: it is skipped or
yields a result. -/
def frameIsBenign (reqId : RpcId) (f : FrameData) : Bool :=
  match frameStep reqId f with
  | .fail _ => false
  | _ => true

/-- A dispatched HTTP response whose JSON-RPC result payload is JSON
null: well-formed, matching id, `result` present and null. -/
def nullResultResponse : HttpResponse :=
  ⟨200, .json, some (.obj [("jsonrpc", .str "2.0"), ("id", .num 1), ("result", .null)])⟩

/-- A well-formed response envelope carrying correlation id 2, used
against a request whose id is 1. -/
def mismatchedIdBody : Json :=
  .obj [("jsonrpc", .str "2.0"), ("id", .num 2), ("result", .str "A")]

/-- The parsed form of `mismatchedIdBody`. -/
def mismatchedIdEnvelope : RpcResponse :=
  ⟨some (.num 2), some (.str "A"), none⟩

/-- A well-formed streaming frame carrying result "A" for request id 1. -/
def frameBodyA : Json :=
  .obj [("jsonrpc", .str "2.0"), ("id", .num 1), ("result", .str "A")]

/-- A well-formed streaming frame carrying result "B" for request id 1. -/
def frameBodyB : Json :=
  .obj [("jsonrpc", .str "2.0"), ("id", .num 1), ("result", .str "B")]

/-- A well-formed streaming frame carrying result "C" for request id 1. -/
def frameBodyC : Json :=
  .obj [("jsonrpc", .str "2.0"), ("id", .num 1), ("result", .str "C")]

/-- A concrete capability over a header-cache state, built from the CLI
handler's operations, that answers any 401 with a fixed Authorization
header.  Used to evaluate the dispatcher on concrete runs. -/
def demoCapability : AuthCapability HttpHeaders :=
  ⟨fun cache => cliHeaders cache,
   fun _ _ resp => if resp.status = 401 then some [("Authorization", "Agentic demo-token")] else none,
   fun cache h => cliOnSuccess cache h⟩

/-- A concrete request: method message/send with a small params object
and correlation id 1. -/
def demoRequest : RpcRequest :=
  buildRpcRequest (.num 1) "message/send" (.obj [("id", .str "t1")])

/-- The challenge body a peer sends with a 401. -/
def challengeBody : Json :=
  .obj [("type", .str "agentic-challenge/0.5")]

/-- A peer that answers every attempt, whatever its headers, with
HTTP 401 and the challenge body. -/
def net401 : Nat → HttpHeaders → Option HttpResponse :=
  fun _ _ => some ⟨401, .json, some challengeBody⟩

/-! ## Helper lemmas -/

/-- Inversion for a successful envelope validation: the body parsed, its
id equals the request id, and its `result` field carries exactly the
returned payload. -/
theorem validateRpcEnvelope_ok {j : Json} {reqId : RpcId} {r : Json}
    (h : validateRpcEnvelope j reqId = .ok r) :
    ∃ rr, parseRpcResponse j = some rr ∧ rr.id = some reqId ∧ rr.result = some r := by
  unfold validateRpcEnvelope at h
  split at h
  · exact Except.noConfusion h
  next rr hp =>
    split at h
    · exact Except.noConfusion h
    next hid =>
      split at h
      · exact Except.noConfusion h
      next herr =>
        split at h
        next r2 hres =>
          refine ⟨rr, hp, by simpa using hid, ?_⟩
          rw [hres, Option.some.injEq]
          exact Except.ok.inj h
        · exact Except.noConfusion h

/-- A failed envelope validation never reports a transport failure: its
errors are protocol violations or peer-supplied RPC errors. -/
theorem validateRpcEnvelope_error_not_transport {j : Json} {reqId : RpcId} {e : RpcFailure}
    (h : validateRpcEnvelope j reqId = .error e) : e ≠ RpcFailure.transport := by
  unfold validateRpcEnvelope at h
  split at h
  · rw [Except.error.injEq] at h; subst h; intro hc; exact RpcFailure.noConfusion hc
  next rr hp =>
    split at h
    · rw [Except.error.injEq] at h; subst h; intro hc; exact RpcFailure.noConfusion hc
    next hid =>
      split at h
      · rw [Except.error.injEq] at h; subst h; intro hc; exact RpcFailure.noConfusion hc
      next herr =>
        split at h
        · exact Except.noConfusion h
        · rw [Except.error.injEq] at h; subst h; intro hc; exact RpcFailure.noConfusion hc

/-- Inversion for a frame the decoder yields from: the frame data
parsed, and the envelope matched the request id with exactly this
result. -/
theorem frameStep_yield {reqId : RpcId} {f : FrameData} {r : Json}
    (h : frameStep reqId f = .yieldResult r) :
    ∃ j rr, f = some j ∧ parseRpcResponse j = some rr ∧
      rr.id = some reqId ∧ rr.result = some r := by
  unfold frameStep at h
  split at h
  · exact FrameStep.noConfusion h
  next j =>
    split at h
    · exact FrameStep.noConfusion h
    next r2 hv =>
      obtain ⟨rr, hp, hid, hres⟩ := validateRpcEnvelope_ok hv
      exact ⟨j, rr, rfl, hp, hid, by rw [hres, FrameStep.yieldResult.inj h]⟩

/-- Frame processing never fails with a transport error; transport
errors originate only from the connection itself. -/
theorem frameStep_not_transport (reqId : RpcId) (f : FrameData) :
    frameStep reqId f ≠ .fail .transport := by
  intro hc
  unfold frameStep at hc
  split at hc
  · exact FrameStep.noConfusion hc
  next j =>
    split at hc
    next e hv =>
      exact validateRpcEnvelope_error_not_transport hv (FrameStep.fail.inj hc)
    · exact FrameStep.noConfusion hc

/-! ## Claim theorems -/

/-- C9: for every baseUrl, the stored endpoint equals baseUrl with
exactly one trailing slash removed when baseUrl ends in a slash and
equals baseUrl unchanged otherwise; with two or more trailing slashes
only one is removed. -/
theorem baseUrl_normalization (t : List Char) :
    normalizeBaseUrl (t ++ ['/']) = t ∧
    (jsEndsWithSlash t = false → normalizeBaseUrl t = t) ∧
    normalizeBaseUrl (t ++ ['/', '/']) = t ++ ['/'] := by
  have hslash : ∀ u : List Char, normalizeBaseUrl (u ++ ['/']) = u := by
    intro u
    unfold normalizeBaseUrl jsEndsWithSlash jsSliceDropLast
    rw [List.getLast?_concat]
    simp [List.dropLast_concat]
  refine ⟨hslash t, ?_, ?_⟩
  · intro h
    unfold normalizeBaseUrl
    rw [h]
    simp
  · have : t ++ ['/', '/'] = (t ++ ['/']) ++ ['/'] := by simp
    rw [this, hslash (t ++ ['/'])]

/-- C9 witness: the normalization evaluated on concrete URLs via the
theorem. -/
theorem baseUrl_normalization_witness :
    normalizeBaseUrl (['u', 'r', 'l'] ++ ['/']) = ['u', 'r', 'l'] ∧
    normalizeBaseUrl ['u', 'r', 'l'] = ['u', 'r', 'l'] :=
  ⟨(baseUrl_normalization ['u', 'r', 'l']).1,
   (baseUrl_normalization ['u', 'r', 'l']).2.1 (by decide)⟩

/-- C10: when the HTTP request for a streaming call produces no
response, the stream returned by `sendTaskSubscribe` yields zero events
and completes cleanly, with no error surfaced to the consumer. -/
theorem sendTaskSubscribe_null_response_empty (reqId : RpcId) :
    sendTaskSubscribe none reqId = ⟨[], .closed⟩ := rfl

/-- C3 counterexample: a dispatched call whose HTTP response is present
(`some`), yet `sendMessage` returns null, because the peer's `result`
payload is JSON null and `(result as Task | null) ?? null` collapses it;
so a non-null dispatch can still make the entry point return null. -/
theorem sendMessage_null_result_counterexample :
    sendMessage (some nullResultResponse) (RpcId.num 1) = .ok none ∧
    some nullResultResponse ≠ (none : Option HttpResponse) := by
  constructor
  · rfl
  · intro hc; exact Option.noConfusion hc

/-- C3 amended: `sendMessage` returns null exactly when the dispatcher
returned null or the parsed `result` payload of a dispatched response is
itself JSON null; in every other case it returns the parsed result or
fails with a typed error. -/
theorem sendMessage_null_characterization (resp : HttpResponse) (reqId : RpcId)
    (h : sendMessage (some resp) reqId = .ok none) :
    handleJsonResponse resp reqId = .ok Json.null := by
  simp only [sendMessage] at h
  cases hh : handleJsonResponse resp reqId with
  | error e => rw [hh] at h; exact Except.noConfusion h
  | ok r =>
    rw [hh] at h
    cases r with
    | null => rfl
    | bool b => exact Option.noConfusion (Except.ok.inj h)
    | num n => exact Option.noConfusion (Except.ok.inj h)
    | str s => exact Option.noConfusion (Except.ok.inj h)
    | arr elems => exact Option.noConfusion (Except.ok.inj h)
    | obj fields => exact Option.noConfusion (Except.ok.inj h)

/-- C3 amended witness: the characterization applied to the concrete
null-result response. -/
theorem sendMessage_null_characterization_witness :
    handleJsonResponse nullResultResponse (RpcId.num 1) = .ok Json.null :=
  sendMessage_null_characterization nullResultResponse (RpcId.num 1) rfl

/-- C2: a JSON-RPC response whose id differs from the originating
request's id is never accepted.  In the demultiplexer it is rejected
with an id-mismatch ProtocolError; in the streaming decoder the stream
never ends cleanly once such a frame is present, and every yielded
result provably comes from a frame whose id equals the request id. -/
theorem response_id_mismatch_protocol_error (reqId : RpcId) (j : Json) (rr : RpcResponse)
    (hp : parseRpcResponse j = some rr) (hm : rr.id ≠ some reqId) :
    (∀ resp : HttpResponse, resp.contentType = .json → resp.body = some j →
       handleJsonResponse resp reqId = .error (.protocol .idMismatch)) ∧
    (∀ (frames : List FrameData) (ending : StreamEnding), some j ∈ frames →
       ∃ e, (handleSseFrames reqId frames ending).outcome = .failed e) ∧
    (∀ (frames : List FrameData) (ending : StreamEnding) (r : Json),
       r ∈ (handleSseFrames reqId frames ending).yielded →
       ∃ j2 rr2, some j2 ∈ frames ∧ parseRpcResponse j2 = some rr2 ∧
         rr2.id = some reqId ∧ rr2.result = some r) := by
  have hstep : frameStep reqId (some j) = .fail (.protocol .idMismatch) := by
    simp only [frameStep, validateRpcEnvelope, hp]
    simp [hm]
  refine ⟨?_, ?_, ?_⟩
  · intro resp hct hb
    simp only [handleJsonResponse, hct, hb, validateRpcEnvelope, hp]
    simp [hm]
  · intro frames ending hmem
    induction frames with
    | nil => cases hmem
    | cons f rest ih =>
      cases hmem with
      | head =>
        exact ⟨.protocol .idMismatch, by simp only [handleSseFrames, hstep]⟩
      | tail _ hmem2 =>
        cases hs : frameStep reqId f with
        | skip =>
          obtain ⟨e, he⟩ := ih hmem2
          exact ⟨e, by simp only [handleSseFrames, hs]; exact he⟩
        | yieldResult r =>
          obtain ⟨e, he⟩ := ih hmem2
          exact ⟨e, by simp only [handleSseFrames, hs]; exact he⟩
        | fail e =>
          exact ⟨e, by simp only [handleSseFrames, hs]⟩
  · intro frames ending r
    induction frames with
    | nil =>
      intro hr
      cases ending <;> simp [handleSseFrames] at hr
    | cons f rest ih =>
      intro hr
      cases hs : frameStep reqId f with
      | skip =>
        rw [show handleSseFrames reqId (f :: rest) ending = handleSseFrames reqId rest ending
              by simp only [handleSseFrames, hs]] at hr
        obtain ⟨j2, rr2, hmem, h1, h2, h3⟩ := ih hr
        exact ⟨j2, rr2, List.Mem.tail _ hmem, h1, h2, h3⟩
      | yieldResult ry =>
        simp only [handleSseFrames, hs] at hr
        cases hr with
        | head =>
          obtain ⟨j2, rr2, hf, hp2, hid2, hres2⟩ := frameStep_yield hs
          exact ⟨j2, rr2, by rw [hf]; exact List.Mem.head _, hp2, hid2, hres2⟩
        | tail _ hr2 =>
          obtain ⟨j2, rr2, hmem, h1, h2, h3⟩ := ih hr2
          exact ⟨j2, rr2, List.Mem.tail _ hmem, h1, h2, h3⟩
      | fail e =>
        simp only [handleSseFrames, hs] at hr
        exact absurd hr (List.not_mem_nil r)

/-- C2 witness: a concrete mismatched envelope (response id 2 against
request id 1) rejected by the demultiplexer and failing a stream. -/
theorem response_id_mismatch_protocol_error_witness :
    handleJsonResponse ⟨200, .json, some mismatchedIdBody⟩ (RpcId.num 1) =
      .error (.protocol .idMismatch) ∧
    ∃ e, (handleSseFrames (RpcId.num 1) [some mismatchedIdBody] .closed).outcome = .failed e := by
  have h := response_id_mismatch_protocol_error (RpcId.num 1) mismatchedIdBody
    mismatchedIdEnvelope rfl (by decide)
  exact ⟨h.1 ⟨200, .json, some mismatchedIdBody⟩ rfl rfl,
         h.2.1 [some mismatchedIdBody] .closed (List.Mem.head _)⟩

/-- C5: the streaming decoder is order-preserving.  On any stream whose
frames are all benign (skipped or yielding), the yielded sequence is
exactly the arrival-ordered list of the frames' results — no
reordering, duplication or omission — and the stream completes
cleanly when the connection closes. -/
theorem decode_order_preserving (reqId : RpcId) (frames : List FrameData)
    (h : frames.all (frameIsBenign reqId) = true) :
    (handleSseFrames reqId frames .closed).yielded =
      frames.filterMap (frameYieldValue reqId) ∧
    (handleSseFrames reqId frames .closed).outcome = .closed := by
  induction frames with
  | nil => exact ⟨rfl, rfl⟩
  | cons f rest ih =>
    rw [List.all_cons, Bool.and_eq_true] at h
    obtain ⟨hf, hrest⟩ := h
    obtain ⟨ihy, iho⟩ := ih hrest
    cases hs : frameStep reqId f with
    | skip =>
      have hv : frameYieldValue reqId f = none := by simp [frameYieldValue, hs]
      rw [List.filterMap_cons, hv]
      exact ⟨by simp only [handleSseFrames, hs]; exact ihy,
             by simp only [handleSseFrames, hs]; exact iho⟩
    | yieldResult r =>
      have hv : frameYieldValue reqId f = some r := by simp [frameYieldValue, hs]
      rw [List.filterMap_cons, hv]
      constructor
      · simp only [handleSseFrames, hs]
        rw [ihy]
      · simp only [handleSseFrames, hs]
        exact iho
    | fail e =>
      exfalso
      simp only [frameIsBenign, hs] at hf
      exact Bool.noConfusion hf

/-- C5 witness: three concrete valid frames decode to exactly their
three results, in arrival order. -/
theorem decode_order_preserving_witness :
    (handleSseFrames (RpcId.num 1)
        [some frameBodyA, some frameBodyB, some frameBodyC] .closed).yielded =
      [Json.str "A", Json.str "B", Json.str "C"] ∧
    (handleSseFrames (RpcId.num 1)
        [some frameBodyA, some frameBodyB, some frameBodyC] .closed).outcome = .closed := by
  have h := decode_order_preserving (RpcId.num 1)
    [some frameBodyA, some frameBodyB, some frameBodyC] rfl
  exact ⟨h.1.trans rfl, h.2⟩

/-- C6: a malformed frame between two valid frames is skipped — the
stream yields both valid results and completes cleanly rather than
aborting — and the decoded sequence aborts with a transport error only
when the HTTP connection itself failed. -/
theorem malformed_frame_skipped :
    (∀ (reqId : RpcId) (a b ra rb : Json),
       frameStep reqId (some a) = .yieldResult ra →
       frameStep reqId (some b) = .yieldResult rb →
       handleSseFrames reqId [some a, none, some b] .closed = ⟨[ra, rb], .closed⟩) ∧
    (∀ (reqId : RpcId) (frames : List FrameData) (ending : StreamEnding),
       (handleSseFrames reqId frames ending).outcome = .failed .transport →
       ending = .connectionError) := by
  constructor
  · intro reqId a b ra rb ha hb
    have hnone : frameStep reqId none = FrameStep.skip := rfl
    simp only [handleSseFrames, ha, hb, hnone]
  · intro reqId frames ending
    induction frames with
    | nil =>
      intro h
      cases ending with
      | closed => simp [handleSseFrames] at h
      | connectionError => rfl
    | cons f rest ih =>
      intro h
      cases hs : frameStep reqId f with
      | skip => exact ih (by simpa only [handleSseFrames, hs] using h)
      | yieldResult r => exact ih (by simpa only [handleSseFrames, hs] using h)
      | fail e =>
        simp only [handleSseFrames, hs] at h
        have he : e = .transport := StreamOutcome.failed.inj h
        exact absurd (he ▸ hs) (frameStep_not_transport reqId f)

/-- C6 witness: a concrete stream with an unparseable middle frame
yields the two valid results and closes cleanly. -/
theorem malformed_frame_skipped_witness :
    handleSseFrames (RpcId.num 1) [some frameBodyA, none, some frameBodyB] .closed =
      ⟨[Json.str "A", Json.str "B"], .closed⟩ :=
  malformed_frame_skipped.1 (RpcId.num 1) frameBodyA frameBodyB
    (Json.str "A") (Json.str "B") rfl rfl

/-- Characterization of a dispatch that retries: given a first attempt
answered 401 and a capability supplying new headers, the run's trace,
final capability state and outcome are fully determined. -/
theorem dispatch_retry_run {σ : Type} (c : AuthCapability σ) (st : σ) (req : RpcRequest)
    (accept : AcceptMode) (net : Nat → HttpHeaders → Option HttpResponse)
    (r0 : HttpResponse) (newHeaders : HttpHeaders)
    (h0 : net 0 (requestHeaders accept (c.headers st)) = some r0)
    (h401 : r0.status = 401)
    (hretry : c.shouldRetryWithHeaders st req r0 = some newHeaders) :
    (dispatch (some c) st req accept net).trace =
      [.attempt 0 (requestHeaders accept (c.headers st)) (serializeRpcRequest req),
       .onSuccessEvt newHeaders,
       .attempt 1 (requestHeaders accept newHeaders) (serializeRpcRequest req)] ∧
    (dispatch (some c) st req accept net).finalState = c.onSuccess st newHeaders ∧
    (dispatch (some c) st req accept net).outcome =
      (match net 1 (requestHeaders accept newHeaders) with
       | none => .error .transport
       | some r1 =>
         if isSuccessStatus r1.status then .ok r1
         else .error (.httpStatus r1.status r1.body)) := by
  have hns : isSuccessStatus r0.status = false := by rw [h401]; rfl
  have h401f : isSuccessStatus 401 = false := rfl
  simp only [dispatch, h0, hns, h401, hretry]
  cases hn1 : net 1 (requestHeaders accept newHeaders) with
  | none => simp [h401f]
  | some r1 =>
    by_cases hr1 : isSuccessStatus r1.status = true
    · simp [h401f, hr1]
    · simp [h401f, Bool.of_not_eq_true hr1]

/-- Every dispatch trace has one of exactly two shapes: a single attempt,
or two attempts bracketing one `onSuccess` invocation, with both
attempts carrying the same serialized body. -/
theorem dispatch_trace_shape {σ : Type} (cap : Option (AuthCapability σ)) (st : σ)
    (req : RpcRequest) (accept : AcceptMode)
    (net : Nat → HttpHeaders → Option HttpResponse) :
    (∃ h, (dispatch cap st req accept net).trace =
       [.attempt 0 h (serializeRpcRequest req)]) ∨
    (∃ h nh h1, (dispatch cap st req accept net).trace =
       [.attempt 0 h (serializeRpcRequest req), .onSuccessEvt nh,
        .attempt 1 h1 (serializeRpcRequest req)]) := by
  simp only [dispatch]
  repeat' split
  all_goals first
    | exact Or.inl ⟨_, rfl⟩
    | exact Or.inr ⟨_, _, _, rfl⟩

/-- C1: at most one authentication retry per dispatched call — no trace
ever records more than two HTTP attempts, whatever the peer or the
capability do; and when the first attempt draws a 401, the capability
supplies headers, and the second attempt draws a 401 again, that second
401 is terminal, surfaced as an HTTP status error with no further
attempt. -/
theorem dispatch_at_most_one_retry {σ : Type} (cap : Option (AuthCapability σ)) (st : σ)
    (req : RpcRequest) (accept : AcceptMode) (net : Nat → HttpHeaders → Option HttpResponse) :
    attemptCount (dispatch cap st req accept net).trace ≤ 2 ∧
    (∀ (c : AuthCapability σ) (r0 r1 : HttpResponse) (newHeaders : HttpHeaders),
       cap = some c →
       net 0 (requestHeaders accept (c.headers st)) = some r0 →
       r0.status = 401 →
       c.shouldRetryWithHeaders st req r0 = some newHeaders →
       net 1 (requestHeaders accept newHeaders) = some r1 →
       r1.status = 401 →
       (dispatch cap st req accept net).outcome = .error (.httpStatus 401 r1.body)) := by
  constructor
  · rcases dispatch_trace_shape cap st req accept net with ⟨h, htr⟩ | ⟨h, nh, h1, htr⟩
    · rw [htr]; simp [attemptCount, List.filter]
    · rw [htr]; simp [attemptCount, List.filter]
  · intro c r0 r1 newHeaders hcap h0 h401 hretry hn1 hr401
    subst hcap
    have hrun := dispatch_retry_run c st req accept net r0 newHeaders h0 h401 hretry
    rw [hrun.2.2, hn1]
    have hns : isSuccessStatus r1.status = false := by rw [hr401]; rfl
    have h401f : isSuccessStatus 401 = false := rfl
    simp [hns, hr401, h401f]

/-- C1 witness: against a peer answering 401 forever, the dispatcher
makes at most two attempts and surfaces the second 401 as a terminal
HTTP status error. -/
theorem dispatch_at_most_one_retry_witness :
    attemptCount (dispatch (some demoCapability) [] demoRequest .json net401).trace ≤ 2 ∧
    (dispatch (some demoCapability) [] demoRequest .json net401).outcome =
      .error (.httpStatus 401 (some challengeBody)) :=
  ⟨(dispatch_at_most_one_retry (some demoCapability) [] demoRequest .json net401).1,
   (dispatch_at_most_one_retry (some demoCapability) [] demoRequest .json net401).2
     demoCapability ⟨401, .json, some challengeBody⟩ ⟨401, .json, some challengeBody⟩
     [("Authorization", "Agentic demo-token")] rfl rfl rfl rfl rfl rfl⟩

/-- C4: when the first attempt draws a 401 and the capability supplies a
header set, `onSuccess` is invoked exactly once, with exactly those
headers, after the first attempt and before the second, and the second
attempt carries the new headers. -/
theorem retry_invokes_onSuccess_before_second_attempt {σ : Type} (c : AuthCapability σ)
    (st : σ) (req : RpcRequest) (accept : AcceptMode)
    (net : Nat → HttpHeaders → Option HttpResponse) (r0 : HttpResponse)
    (newHeaders : HttpHeaders)
    (h0 : net 0 (requestHeaders accept (c.headers st)) = some r0)
    (h401 : r0.status = 401)
    (hretry : c.shouldRetryWithHeaders st req r0 = some newHeaders) :
    (dispatch (some c) st req accept net).trace =
      [.attempt 0 (requestHeaders accept (c.headers st)) (serializeRpcRequest req),
       .onSuccessEvt newHeaders,
       .attempt 1 (requestHeaders accept newHeaders) (serializeRpcRequest req)] :=
  (dispatch_retry_run c st req accept net r0 newHeaders h0 h401 hretry).1

/-- C4 witness: a concrete 401-retry run's trace, showing the single
`onSuccess` between the two attempts and the retried attempt carrying
the new headers. -/
theorem retry_invokes_onSuccess_before_second_attempt_witness :
    (dispatch (some demoCapability) [] demoRequest .json net401).trace =
      [.attempt 0 (requestHeaders .json []) (serializeRpcRequest demoRequest),
       .onSuccessEvt [("Authorization", "Agentic demo-token")],
       .attempt 1 (requestHeaders .json [("Authorization", "Agentic demo-token")])
         (serializeRpcRequest demoRequest)] :=
  retry_invokes_onSuccess_before_second_attempt demoCapability [] demoRequest .json net401
    ⟨401, .json, some challengeBody⟩ [("Authorization", "Agentic demo-token")] rfl rfl rfl

/-- C7: a retried call serializes the identical request on both
attempts — same correlation id, method and params — and only the
attached header sets differ between the two attempts. -/
theorem retry_reuses_identical_request {σ : Type} (c : AuthCapability σ) (st : σ)
    (req : RpcRequest) (accept : AcceptMode) (net : Nat → HttpHeaders → Option HttpResponse)
    (r0 : HttpResponse) (newHeaders : HttpHeaders)
    (h0 : net 0 (requestHeaders accept (c.headers st)) = some r0)
    (h401 : r0.status = 401)
    (hretry : c.shouldRetryWithHeaders st req r0 = some newHeaders) :
    attemptBodies (dispatch (some c) st req accept net).trace =
      [serializeRpcRequest req, serializeRpcRequest req] ∧
    attemptHeaders (dispatch (some c) st req accept net).trace =
      [requestHeaders accept (c.headers st), requestHeaders accept newHeaders] := by
  have htr := (dispatch_retry_run c st req accept net r0 newHeaders h0 h401 hretry).1
  rw [htr]
  exact ⟨rfl, rfl⟩

/-- C7 witness: on a concrete retried run, both attempt bodies are the
same serialized request and only the headers differ. -/
theorem retry_reuses_identical_request_witness :
    attemptBodies (dispatch (some demoCapability) [] demoRequest .json net401).trace =
      [serializeRpcRequest demoRequest, serializeRpcRequest demoRequest] ∧
    attemptHeaders (dispatch (some demoCapability) [] demoRequest .json net401).trace =
      [requestHeaders .json [], requestHeaders .json [("Authorization", "Agentic demo-token")]] :=
  retry_reuses_identical_request demoCapability [] demoRequest .json net401
    ⟨401, .json, some challengeBody⟩ [("Authorization", "Agentic demo-token")] rfl rfl rfl

/-- Folding any sequence of handler operations over a cache leaves
exactly the most recent `onSuccess` headers (or the starting cache when
none occurred). -/
theorem authApply_foldl (ops : List AuthOp) : ∀ cache : HttpHeaders,
    ops.foldl authApply cache = (lastOnSuccessHeaders ops).getD cache := by
  induction ops with
  | nil => intro cache; rfl
  | cons op rest ih =>
    intro cache
    rw [List.foldl_cons, ih (authApply cache op)]
    cases hl : lastOnSuccessHeaders rest with
    | some h => simp [lastOnSuccessHeaders, hl]
    | none =>
      cases op with
      | onSuccessCall h => simp [lastOnSuccessHeaders, hl, authApply, cliOnSuccess]
      | headersCall => simp [lastOnSuccessHeaders, hl, authApply]
      | shouldRetryCall req resp => simp [lastOnSuccessHeaders, hl, authApply]

/-- Within one dispatch, the capability state either is untouched (no
`onSuccess` event in the trace) or is exactly one `onSuccess` update. -/
theorem dispatch_state_change {σ : Type} (c : AuthCapability σ) (st : σ) (req : RpcRequest)
    (accept : AcceptMode) (net : Nat → HttpHeaders → Option HttpResponse) :
    (onSuccessEvents (dispatch (some c) st req accept net).trace = [] ∧
       (dispatch (some c) st req accept net).finalState = st) ∨
    (∃ h, onSuccessEvents (dispatch (some c) st req accept net).trace = [h] ∧
       (dispatch (some c) st req accept net).finalState = c.onSuccess st h) := by
  simp only [dispatch]
  repeat' split
  all_goals first
    | exact Or.inl ⟨rfl, rfl⟩
    | exact Or.inr ⟨_, rfl, rfl⟩

/-- C8: the credential cache is an invariant of every operation except
`onSuccess`.  The handler's `headers()` returns exactly the cache; a
sequence of operations starting from the empty cache ends with the
header set of the most recent `onSuccess`, the empty set when none has
fired; and on the core's side one dispatch either leaves the capability
state untouched or applies exactly one `onSuccess` update. -/
theorem auth_header_cache_invariant :
    (∀ cache : HttpHeaders, cliHeaders cache = cache) ∧
    (∀ ops : List AuthOp,
       ops.foldl authApply cliInitialHeaders =
         (lastOnSuccessHeaders ops).getD cliInitialHeaders) ∧
    (∀ (σ : Type) (c : AuthCapability σ) (st : σ) (req : RpcRequest) (accept : AcceptMode)
       (net : Nat → HttpHeaders → Option HttpResponse),
       (onSuccessEvents (dispatch (some c) st req accept net).trace = [] ∧
          (dispatch (some c) st req accept net).finalState = st) ∨
       (∃ h, onSuccessEvents (dispatch (some c) st req accept net).trace = [h] ∧
          (dispatch (some c) st req accept net).finalState = c.onSuccess st h)) :=
  ⟨fun _ => rfl,
   fun ops => authApply_foldl ops cliInitialHeaders,
   fun _ c st req accept net => dispatch_state_change c st req accept net⟩
